import Mathlib

/-!
Shallow embedding of `tb6612fng.py`, a MicroPython driver for the TB6612FNG
dual H-bridge motor controller (single channel).

Modelling conventions:
  * Speeds are Python integers, modelled as `Int`.  (The driver also accepts
    floats; the ramp logic and all claims under scrutiny concern integer
    speeds, and floating point is outside the scope of this embedding.)
  * The `655.35` scaling factor of `percent_to_duty` is modelled exactly as
    the rational `655.35 : ℚ`, and Python's `round` (round-half-to-even) as
    `pyRound`.  For integer `p ∈ [0,100]` the double product `p * 655.35` is
    within 4e-12 of the exact rational, and at the tie points
    `p ∈ {10,30,50,70,90}` it is exactly the half-integer (the true product
    exceeds it by under half an ulp), so Python's banker-rounded result on
    the double equals round-half-to-even on the exact rational — e.g.
    `round(30*655.35) == 19660` and `round(50*655.35) == 32768`.
  * Hardware state (`machine.Pin`, `machine.PWM`) is a record of the two
    direction-line levels, the 16-bit duty value, the stored speed, and the
    optional standby-line level (`none` when constructed with
    `stby_pin=None`).
  * Python exceptions become explicit values (`PyErr`); operations that can
    raise after mutating `self` return the mutated state together with the
    error (`MotorState × Option PyErr`), matching Python's semantics where
    side effects performed before a raise persist.
  * The generator `drive_ramp` and the two wrapper loops are modelled with a
    fuel parameter; `none` means the fuel ran out before the loop finished,
    so termination statements assert that some finite fuel yields `some`.
  * A `KeyboardInterrupt` is modelled as arriving during the k-th sleep of a
    wrapper loop (`cancelAt = some k`), the suspension points being the only
    places the wrappers can observe it.
-/

/-- Python exception kinds that the driver can raise. -/
inductive PyErr where
  | valueError
  | typeError
  | attributeError
deriving DecidableEq, Repr

/-- Hardware-visible state of one driver instance: direction-line levels
`p1`, `p2`, the PWM duty (`pwm.duty_u16`), the stored `self.speed`, and the
standby-line level (`none` when no standby pin was configured). -/
structure MotorState where
  p1 : Int
  p2 : Int
  duty : Int
  speed : Int
  stby : Option Int
deriving DecidableEq, Repr

/-- Decidable equality on `Except`, needed to settle claims about operations
that return a raised error or a state by `decide`. -/
instance {ε α : Type} [DecidableEq ε] [DecidableEq α] : DecidableEq (Except ε α) := fun a b =>
  match a, b with
  | .ok x, .ok y =>
    if h : x = y then .isTrue (by rw [h]) else .isFalse (fun hc => h (by injection hc))
  | .error x, .error y =>
    if h : x = y then .isTrue (by rw [h]) else .isFalse (fun hc => h (by injection hc))
  | .ok _, .error _ => .isFalse (fun hc => Except.noConfusion hc)
  | .error _, .ok _ => .isFalse (fun hc => Except.noConfusion hc)

/-- Python's `round`: round to the nearest integer, ties to the even
neighbour (banker's rounding). -/
def pyRound (x : ℚ) : Int :=
  if x - ⌊x⌋ < 1/2 then ⌊x⌋
  else if 1/2 < x - ⌊x⌋ then ⌊x⌋ + 1
  else if ⌊x⌋ % 2 = 0 then ⌊x⌋ else ⌊x⌋ + 1

/-- Half-to-even rounding of `a / 200` written with integer arithmetic:
nearest when `a % 200 ≠ 100`, even neighbour on the exact tie. -/
def pyRoundScaled (a : Int) : Int :=
  if a % 200 < 100 then a / 200
  else if 100 < a % 200 then a / 200 + 1
  else if (a / 200) % 2 = 0 then a / 200 else a / 200 + 1

/-- `percent_to_duty(p)`: `p = max(0, min(100, abs(p)))`;
`return min(round(p * 655.35), 65535)`.  `round(q * 655.35)` — Python's
half-to-even `round` of the double product, which for every relevant `q`
equals half-to-even on the exact rational `131070*q / 200` (see the module
docstring) — is written as `pyRoundScaled (131070 * q)`.  The lemma
`percent_to_duty_eq_pyRound` below proves this form equal to
`min(pyRound(q * 655.35), 65535)`. -/
def percent_to_duty (p : Int) : Int :=
  let q : Int := max 0 (min 100 (p.natAbs : Int))
  min (pyRoundScaled (131070 * q)) 65535

/-- Half-to-even rounding of the exact rational `q * 655.35`, in integer
arithmetic on `a = 131070 * q`. -/
lemma pyRound_mul_scale (q : Int) :
    pyRound ((q : ℚ) * 655.35) = pyRoundScaled (131070 * q) := by
  unfold pyRoundScaled
  have h655 : (655.35 : ℚ) = 65535 / 100 := by norm_num
  have hx : (q : ℚ) * 655.35 = ((131070 * q : ℤ) : ℚ) / ((200 : ℕ) : ℚ) := by
    rw [h655]
    push_cast
    ring
  have hfl : ⌊(q : ℚ) * 655.35⌋ = (131070 * q) / 200 := by
    rw [hx, Rat.floor_intCast_div_natCast]
    norm_num
  have hmod : ((131070 * q) % 200 : ℤ) = 131070 * q - 200 * ((131070 * q) / 200) := by
    have := Int.ediv_add_emod (131070 * q) 200
    omega
  have hfrac : (q : ℚ) * 655.35 - (⌊(q : ℚ) * 655.35⌋ : ℚ)
      = (((131070 * q) % 200 : ℤ) : ℚ) / 200 := by
    rw [hfl, hx, hmod]
    push_cast
    field_simp
  have h0 : (0 : ℚ) < 200 := by norm_num
  have hc1 : ((((131070 * q) % 200 : ℤ) : ℚ) / 200 < 1/2) ↔ ((131070 * q) % 200 < 100) := by
    rw [div_lt_iff₀ h0]
    norm_num
    constructor <;> intro h <;> exact_mod_cast h
  have hc2 : ((1:ℚ)/2 < (((131070 * q) % 200 : ℤ) : ℚ) / 200) ↔ (100 < (131070 * q) % 200) := by
    rw [lt_div_iff₀ h0]
    norm_num
    constructor <;> intro h <;> exact_mod_cast h
  rw [pyRound, hfrac, hfl]
  simp only [hc1, hc2]

/-- `pyRoundScaled` of a nonnegative value is nonnegative. -/
lemma pyRoundScaled_nonneg (a : Int) (h : 0 ≤ a) : 0 ≤ pyRoundScaled a := by
  unfold pyRoundScaled
  split_ifs <;> omega

/-- The integer form used in `percent_to_duty` agrees with the literal
`min(round(p_clamped * 655.35), 65535)` of the source, `round` being
Python's half-to-even rounding. -/
lemma percent_to_duty_eq_pyRound (p : Int) :
    percent_to_duty p =
      min (pyRound (((max 0 (min 100 (p.natAbs : Int)) : Int) : ℚ) * 655.35)) 65535 := by
  rw [pyRound_mul_scale]
  rfl

/-- `set_raw_values(pin1, pin2, pwm_duty)`: each argument updates the
corresponding output when not `None`. -/
def set_raw_values (s : MotorState) (pin1 : Option Int := none)
    (pin2 : Option Int := none) (pwm_duty : Option Int := none) : MotorState :=
  let s1 := match pin1 with | some v => { s with p1 := v } | none => s
  let s2 := match pin2 with | some v => { s1 with p2 := v } | none => s1
  match pwm_duty with | some v => { s2 with duty := v } | none => s2

/-- `brake()` = `set_raw_values(1, 1, 0)`. -/
def brake (s : MotorState) : MotorState :=
  set_raw_values s (some 1) (some 1) (some 0)

/-- `coast()` = `set_raw_values(0, 0, 0)`. -/
def coast (s : MotorState) : MotorState :=
  set_raw_values s (some 0) (some 0) (some 0)

/-- `set_forward()` = `set_raw_values(1, 0)`. -/
def set_forward (s : MotorState) : MotorState :=
  set_raw_values s (some 1) (some 0)

/-- `set_reverse()` = `set_raw_values(0, 1)`. -/
def set_reverse (s : MotorState) : MotorState :=
  set_raw_values s (some 0) (some 1)

/-- `set_motor(direction, speed)`: `method = getattr(self, f'set_{direction}',
None)`.  The attributes of a `TB6612FNG` instance whose names start with
`set_` are exactly `set_forward`, `set_reverse`, `set_raw_values` and
`set_motor` itself, so the lookup succeeds for the four direction tokens
`forward`, `reverse`, `raw_values`, `motor` and fails (raising `ValueError`)
for everything else.  `method()` is then called with no arguments:
`set_raw_values()` is a no-op (all parameters default to `None`) after which
the duty write still happens, while `set_motor()` raises `TypeError` (missing
required arguments) before any hardware write. -/
def set_motor (s : MotorState) (direction : String) (speed : Int) :
    Except PyErr MotorState :=
  if direction = "forward" then
    .ok (set_raw_values (set_forward s) none none (some (percent_to_duty speed)))
  else if direction = "reverse" then
    .ok (set_raw_values (set_reverse s) none none (some (percent_to_duty speed)))
  else if direction = "raw_values" then
    .ok (set_raw_values s none none (some (percent_to_duty speed)))
  else if direction = "motor" then
    .error .typeError
  else
    .error .valueError

/-- `drive(speed=None, auto_brake=True)`: with `speed=None` just returns
`self.speed`; otherwise clamps to `[-100, 100]`, stores it, then either calls
`set_motor` (nonzero) or `brake`/`coast` (zero), and returns the stored speed.
The inner `set_motor` call uses the literal tokens `"forward"`/`"reverse"`,
which always resolve, so its error branch is unreachable (see
`drive_set_motor_ok`). -/
def drive (s : MotorState) (speed : Option Int := none)
    (auto_brake : Bool := true) : MotorState × Int :=
  match speed with
  | none => (s, s.speed)
  | some sp =>
    let p := max (-100) (min 100 sp)
    let s1 := { s with speed := p }
    if p ≠ 0 then
      match set_motor s1 (if p < 0 then "reverse" else "forward") (p.natAbs : Int) with
      | .ok s2 => (s2, p)
      | .error _ => (s1, p)
    else
      ((if auto_brake then brake s1 else coast s1), p)

/-- `on()`: `self.stby.value(1)`; raises `AttributeError` when the driver was
constructed without a standby pin (no `self.stby` attribute exists).
(`on` is written `«on»` because plain `on` is reserved by Mathlib.) -/
def «on» (s : MotorState) : MotorState × Option PyErr :=
  match s.stby with
  | none => (s, some .attributeError)
  | some _ => ({ s with stby := some 1 }, none)

/-- `off(auto_brake=True)`: brakes or coasts first, then `self.stby.value(0)`,
which raises `AttributeError` when no standby pin was configured — after the
brake/coast write already happened. -/
def off (s : MotorState) (auto_brake : Bool := true) : MotorState × Option PyErr :=
  let s1 := if auto_brake then brake s else coast s
  match s1.stby with
  | none => (s1, some .attributeError)
  | some _ => ({ s1 with stby := some 0 }, none)

/-- `__init__`: output pins are created (low), the standby pin — when given —
is created and `on()` is called, then `self.speed = 0` and `self.brake()`. -/
def TB6612FNG_init (has_stby : Bool) : MotorState :=
  let s0 : MotorState :=
    { p1 := 0, p2 := 0, duty := 0, speed := 0
      stby := if has_stby then some 0 else none }
  let s1 := if has_stby then («on» s0).1 else s0
  brake { s1 with speed := 0 }

/-- One iteration body of the `drive_ramp` loop:
`change = -1 if self.drive() > target_speed else 1` followed by
`self.drive(self.drive() + change)` (with `auto_brake` left at its default
`True`). -/
def rampStep (s : MotorState) (target_speed : Int) : MotorState × Int :=
  let change : Int := if (drive s).2 > target_speed then -1 else 1
  drive s (some ((drive s).2 + change)) true

/-- Observable outcome of running the `drive_ramp` generator to exhaustion:
the values it yielded, the arguments of the `status_func` invocations, and
the final motor state. -/
structure RampRun where
  yields : List Int
  calls : List Int
  final : MotorState
deriving DecidableEq, Repr

/-- `drive_ramp(target_speed, status_func)` run to exhaustion with `fuel`
bounding the number of loop iterations (`none` = fuel ran out).  Mirrors:
`while self.drive() != target_speed:` compute `change`, call `status_func`
with the pre-step speed, apply the step and yield its value; after the loop a
final `status_func(self.drive())` call. -/
def drive_rampF : Nat → MotorState → Int → Bool → Option RampRun
  | fuel, s, target_speed, hasObs =>
    if (drive s).2 = target_speed then
      some ⟨[], if hasObs then [(drive s).2] else [], s⟩
    else
      match fuel with
      | 0 => none
      | n + 1 =>
        let pre := (drive s).2
        let step := rampStep s target_speed
        match drive_rampF n step.1 target_speed hasObs with
        | some r =>
            some ⟨step.2 :: r.yields, (if hasObs then [pre] else []) ++ r.calls, r.final⟩
        | none => none

/-- `safe_drive(target_speed, ...)`: `for _ in self.drive_ramp(...):
time.sleep_ms(...)` with `except KeyboardInterrupt: self.brake()`.
`cancelAt = some k` means a `KeyboardInterrupt` arrives during the k-th
sleep (counted from 0), i.e. right after the (k+1)-th step was applied;
`none` means no interrupt.  `fuel` bounds the iterations as above. -/
def safe_driveF : Nat → MotorState → Int → Option Nat → Option MotorState
  | 0, _, _, _ => none
  | n + 1, s, target_speed, cancelAt =>
    if (drive s).2 = target_speed then some s
    else
      let s1 := (rampStep s target_speed).1
      match cancelAt with
      | some 0 => some (brake s1)
      | some (k + 1) => safe_driveF n s1 target_speed (some k)
      | none => safe_driveF n s1 target_speed none

/-- `safe_drive_async(target_speed, ...)`: identical loop to `safe_drive`
except the sleep is `await asyncio.sleep_ms(...)`; the state evolution and
the `except KeyboardInterrupt: self.brake()` handler are the same. -/
def safe_drive_asyncF : Nat → MotorState → Int → Option Nat → Option MotorState
  | 0, _, _, _ => none
  | n + 1, s, target_speed, cancelAt =>
    if (drive s).2 = target_speed then some s
    else
      let s1 := (rampStep s target_speed).1
      match cancelAt with
      | some 0 => some (brake s1)
      | some (k + 1) => safe_drive_asyncF n s1 target_speed (some k)
      | none => safe_drive_asyncF n s1 target_speed none

/-- The arithmetic progression `[c + d, c + 2d, ..., c + n*d]`. -/
def rampSeqAux : Nat → Int → Int → List Int
  | 0, _, _ => []
  | n + 1, c, d => (c + d) :: rampSeqAux n (c + d) d

/-- The sequence of speeds a ramp from `cur` to `target` passes through,
one unit per step, `target` included, `cur` excluded. -/
def rampSeq (cur target : Int) : List Int :=
  rampSeqAux (cur - target).natAbs cur (if cur > target then -1 else 1)

/-- A fixed concrete motor state with the given stored speed, used to
instantiate universally quantified theorems. -/
def stateAt (v : Int) : MotorState :=
  { p1 := 1, p2 := 0, duty := 0, speed := v, stby := none }

/-- `set_motor` with the literal token `forward` never raises and writes the
forward line pattern plus the converted duty. -/
lemma set_motor_forward_eq (s : MotorState) (v : Int) :
    set_motor s "forward" v = .ok { s with p1 := 1, p2 := 0, duty := percent_to_duty v } := rfl

/-- `set_motor` with the literal token `reverse` never raises and writes the
reverse line pattern plus the converted duty. -/
lemma set_motor_reverse_eq (s : MotorState) (v : Int) :
    set_motor s "reverse" v = .ok { s with p1 := 0, p2 := 1, duty := percent_to_duty v } := rfl

/-- Reading the speed through `drive()` with no argument is the identity. -/
lemma drive_none_eq (s : MotorState) (ab : Bool) : drive s none ab = (s, s.speed) := rfl

/-- `drive` with an explicit speed stores and returns the clamped value. -/
lemma drive_some_speed (s : MotorState) (sp : Int) (ab : Bool) :
    (drive s (some sp) ab).1.speed = max (-100) (min 100 sp) ∧
    (drive s (some sp) ab).2 = max (-100) (min 100 sp) := by
  simp only [drive]
  by_cases h0 : max (-100) (min 100 sp) = 0
  · simp only [h0, ne_eq, not_true_eq_false, if_false]
    cases ab <;> simp [brake, coast, set_raw_values]
  · simp only [ne_eq, h0, not_false_eq_true, if_true]
    by_cases hneg : max (-100) (min 100 sp) < 0
    · simp only [hneg, if_true, set_motor_reverse_eq]
      exact ⟨trivial, trivial⟩
    · simp only [hneg, if_false, set_motor_forward_eq]
      exact ⟨trivial, trivial⟩

/-- One ramp iteration moves the stored speed by exactly one unit toward the
target, provided both are in range and the target is not yet reached. -/
lemma rampStep_eq (s : MotorState) (t : Int) (h1 : -100 ≤ s.speed) (h2 : s.speed ≤ 100)
    (h3 : -100 ≤ t) (h4 : t ≤ 100) (hne : s.speed ≠ t) :
    (rampStep s t).1.speed = s.speed + (if s.speed > t then -1 else 1) ∧
    (rampStep s t).2 = s.speed + (if s.speed > t then -1 else 1) := by
  have hds := drive_some_speed s (s.speed + (if s.speed > t then -1 else 1)) true
  have hcl : max (-100) (min 100 (s.speed + (if s.speed > t then -1 else 1)))
      = s.speed + (if s.speed > t then -1 else 1) := by
    by_cases hgt : s.speed > t <;> simp only [hgt, if_true, if_false] <;> omega
  rw [hcl] at hds
  have hrs : rampStep s t = drive s (some (s.speed + (if s.speed > t then -1 else 1))) true := rfl
  rw [hrs]
  exact hds

/-- Unfolding `drive_rampF` when the target is already reached. -/
lemma drive_rampF_base (n : Nat) (s : MotorState) (t : Int) (b : Bool) (h : s.speed = t) :
    drive_rampF n s t b = some ⟨[], if b then [s.speed] else [], s⟩ := by
  rw [drive_rampF.eq_def]
  simp [drive, h]

/-- Unfolding `drive_rampF` when a step remains. -/
lemma drive_rampF_succ (n : Nat) (s : MotorState) (t : Int) (b : Bool) (h : ¬s.speed = t) :
    drive_rampF (n + 1) s t b =
      match drive_rampF n (rampStep s t).1 t b with
      | some r =>
          some ⟨(rampStep s t).2 :: r.yields, (if b then [s.speed] else []) ++ r.calls, r.final⟩
      | none => none := by
  rw [drive_rampF, if_neg (show ¬(drive s).2 = t from h)]
  rfl

lemma rampSeqAux_length (n : Nat) : ∀ (c d : Int), (rampSeqAux n c d).length = n := by
  induction n with
  | zero => intro c d; rfl
  | succ n ih => intro c d; simp [rampSeqAux, ih]

lemma rampSeqAux_chain (n : Nat) :
    ∀ (c d : Int), List.Chain (fun a b => b = a + d) c (rampSeqAux n c d) := by
  induction n with
  | zero => intro c d; exact List.Chain.nil
  | succ n ih => intro c d; exact List.Chain.cons rfl (ih (c + d) d)

lemma rampSeqAux_mem (n : Nat) :
    ∀ (c d v : Int), v ∈ rampSeqAux n c d → ∃ k : Nat, 1 ≤ k ∧ k ≤ n ∧ v = c + (k : Int) * d := by
  induction n with
  | zero => intro c d v hv; exact absurd hv (List.not_mem_nil v)
  | succ n ih =>
    intro c d v hv
    rcases List.mem_cons.mp hv with h | h
    · exact ⟨1, le_refl 1, Nat.le_add_left 1 n, by rw [h]; ring⟩
    · obtain ⟨k, hk1, hk2, hk3⟩ := ih (c + d) d v h
      exact ⟨k + 1, Nat.le_add_left 1 k, Nat.add_le_add_right hk2 1, by rw [hk3]; push_cast; ring⟩

lemma rampSeqAux_getLast (n : Nat) :
    ∀ (c d : Int), n ≠ 0 → (rampSeqAux n c d).getLast? = some (c + (n : Int) * d) := by
  induction n with
  | zero => intro c d h; exact absurd rfl h
  | succ n ih =>
    intro c d _
    cases n with
    | zero => simp [rampSeqAux]
    | succ m =>
      have hne : m + 1 ≠ 0 := Nat.succ_ne_zero m
      calc (rampSeqAux (m + 1 + 1) c d).getLast?
          = (rampSeqAux (m + 1) (c + d) d).getLast? := by
            rw [show rampSeqAux (m + 1 + 1) c d
                = (c + d) :: rampSeqAux (m + 1) (c + d) d from rfl]
            rw [show rampSeqAux (m + 1) (c + d) d
                = (c + d + d) :: rampSeqAux m (c + d + d) d from rfl]
            exact List.getLast?_cons_cons
        _ = some (c + d + ((m + 1 : Nat) : Int) * d) := ih (c + d) d hne
        _ = some (c + ((m + 1 + 1 : Nat) : Int) * d) := by push_cast; ring_nf

lemma rampSeq_self (c : Int) : rampSeq c c = [] := by
  simp [rampSeq, rampSeqAux]

lemma rampSeq_cons (c t : Int) (h : c ≠ t) :
    rampSeq c t =
      (c + (if c > t then -1 else 1)) :: rampSeq (c + (if c > t then -1 else 1)) t := by
  by_cases hgt : c > t
  · simp only [rampSeq, hgt, if_true]
    have hm : (c - t).natAbs = (c + -1 - t).natAbs + 1 := by omega
    rw [hm]
    show (c + -1) :: rampSeqAux ((c + -1 - t).natAbs) (c + -1) (-1) = _
    congr 1
    by_cases h2 : c + -1 > t
    · rw [if_pos h2]
    · have hz : (c + -1 - t).natAbs = 0 := by omega
      rw [hz]
      rfl
  · simp only [rampSeq, hgt, if_false]
    have hm : (c - t).natAbs = (c + 1 - t).natAbs + 1 := by omega
    rw [hm]
    show (c + 1) :: rampSeqAux ((c + 1 - t).natAbs) (c + 1) 1 = _
    congr 1
    by_cases h2 : c + 1 > t
    · have hz : (c + 1 - t).natAbs = 0 := by omega
      rw [hz]
      rfl
    · rw [if_neg h2]

/-- Master characterisation of the ramp generator: with fuel at least the
unit distance from current to target, the generator is exhausted, yields
exactly the unit-step progression, calls the observer once per step with the
pre-step speed plus once with the settled value, and leaves the stored speed
at the target. -/
lemma drive_rampF_spec (n : Nat) :
    ∀ (s : MotorState) (t : Int) (b : Bool),
      -100 ≤ s.speed → s.speed ≤ 100 → -100 ≤ t → t ≤ 100 →
      (s.speed - t).natAbs ≤ n →
      ∃ r : RampRun, drive_rampF n s t b = some r ∧
        r.yields = rampSeq s.speed t ∧
        r.calls = (if b then s.speed :: rampSeq s.speed t else []) ∧
        r.final.speed = t := by
  induction n with
  | zero =>
    intro s t b h1 h2 h3 h4 hle
    have heq : s.speed = t := by omega
    refine ⟨⟨[], if b then [s.speed] else [], s⟩, drive_rampF_base 0 s t b heq, ?_, ?_, heq⟩
    · rw [heq, rampSeq_self]
    · rw [heq, rampSeq_self]
  | succ n ih =>
    intro s t b h1 h2 h3 h4 hle
    by_cases heq : s.speed = t
    · refine ⟨⟨[], if b then [s.speed] else [], s⟩,
        drive_rampF_base (n + 1) s t b heq, ?_, ?_, heq⟩
      · rw [heq, rampSeq_self]
      · rw [heq, rampSeq_self]
    · obtain ⟨hsp, hval⟩ := rampStep_eq s t h1 h2 h3 h4 heq
      have hrange : -100 ≤ (rampStep s t).1.speed ∧ (rampStep s t).1.speed ≤ 100 := by
        rw [hsp]
        by_cases hgt : s.speed > t <;> simp only [hgt, if_true, if_false] <;> omega
      have hdist : ((rampStep s t).1.speed - t).natAbs ≤ n := by
        rw [hsp]
        by_cases hgt : s.speed > t <;> simp only [hgt, if_true, if_false] <;> omega
      obtain ⟨r, hr, hy, hc, hf⟩ := ih (rampStep s t).1 t b hrange.1 hrange.2 h3 h4 hdist
      refine ⟨⟨(rampStep s t).2 :: r.yields, (if b then [s.speed] else []) ++ r.calls, r.final⟩,
        ?_, ?_, ?_, hf⟩
      · rw [drive_rampF_succ n s t b heq, hr]
      · show (rampStep s t).2 :: r.yields = rampSeq s.speed t
        rw [rampSeq_cons s.speed t heq, hval, hy, hsp]
      · show (if b then [s.speed] else []) ++ r.calls
            = (if b then s.speed :: rampSeq s.speed t else [])
        cases b
        · simpa using hc
        · simp only [if_true, List.singleton_append, hc, hsp]
          rw [rampSeq_cons s.speed t heq]

/-- The inner `set_motor` call of `drive` always resolves: its error branch
is unreachable. -/
lemma drive_set_motor_ok (s : MotorState) (p : Int) :
    ∃ s2, set_motor s (if p < 0 then "reverse" else "forward") (p.natAbs : Int) = .ok s2 := by
  by_cases h : p < 0 <;> simp [h, set_motor_reverse_eq, set_motor_forward_eq]

lemma brake_fields (s : MotorState) :
    (brake s).p1 = 1 ∧ (brake s).p2 = 1 ∧ (brake s).duty = 0 ∧
    (brake s).speed = s.speed ∧ (brake s).stby = s.stby :=
  ⟨rfl, rfl, rfl, rfl, rfl⟩

lemma coast_fields (s : MotorState) :
    (coast s).p1 = 0 ∧ (coast s).p2 = 0 ∧ (coast s).duty = 0 ∧
    (coast s).speed = s.speed ∧ (coast s).stby = s.stby :=
  ⟨rfl, rfl, rfl, rfl, rfl⟩

/-- Unfolding of one `safe_drive` loop iteration. -/
lemma safe_driveF_succ_eq (n : Nat) (s : MotorState) (t : Int) (c : Option Nat) :
    safe_driveF (n + 1) s t c =
      if s.speed = t then some s
      else
        match c with
        | some 0 => some (brake (rampStep s t).1)
        | some (k + 1) => safe_driveF n (rampStep s t).1 t (some k)
        | none => safe_driveF n (rampStep s t).1 t none := rfl

/-- Unfolding of one `safe_drive_async` loop iteration. -/
lemma safe_drive_asyncF_succ_eq (n : Nat) (s : MotorState) (t : Int) (c : Option Nat) :
    safe_drive_asyncF (n + 1) s t c =
      if s.speed = t then some s
      else
        match c with
        | some 0 => some (brake (rampStep s t).1)
        | some (k + 1) => safe_drive_asyncF n (rampStep s t).1 t (some k)
        | none => safe_drive_asyncF n (rampStep s t).1 t none := rfl

/-- The async wrapper performs the same state evolution as the blocking one:
the two loops differ only in the sleep primitive. -/
lemma safe_drive_asyncF_eq_sync :
    ∀ (n : Nat) (s : MotorState) (t : Int) (c : Option Nat),
      safe_drive_asyncF n s t c = safe_driveF n s t c := by
  intro n
  induction n with
  | zero => intro s t c; rfl
  | succ n ih =>
    intro s t c
    rw [safe_driveF_succ_eq, safe_drive_asyncF_succ_eq]
    by_cases h : s.speed = t
    · simp [h]
    · simp only [h, if_false]
      cases c with
      | none => exact ih _ _ _
      | some k => cases k with
        | zero => rfl
        | succ k => exact ih _ _ _

/-- One ramp step keeps the speed in range and shrinks the unit distance to
the target by exactly one. -/
lemma rampStep_progress (s : MotorState) (t : Int) (h1 : -100 ≤ s.speed) (h2 : s.speed ≤ 100)
    (h3 : -100 ≤ t) (h4 : t ≤ 100) (hne : s.speed ≠ t) :
    -100 ≤ (rampStep s t).1.speed ∧ (rampStep s t).1.speed ≤ 100 ∧
    ((rampStep s t).1.speed - t).natAbs + 1 = (s.speed - t).natAbs := by
  obtain ⟨hsp, _⟩ := rampStep_eq s t h1 h2 h3 h4 hne
  rw [hsp]
  by_cases hgt : s.speed > t <;> simp only [hgt, if_true, if_false] <;>
    exact ⟨by omega, by omega, by omega⟩

/-- A cancellation during the k-th sleep leaves the blocking wrapper in the
brake state. -/
lemma safe_driveF_cancel_spec :
    ∀ (k fuel : Nat) (s : MotorState) (t : Int),
      -100 ≤ s.speed → s.speed ≤ 100 → -100 ≤ t → t ≤ 100 →
      k < (s.speed - t).natAbs → k < fuel →
      ∃ m : MotorState, safe_driveF fuel s t (some k) = some m ∧
        m.p1 = 1 ∧ m.p2 = 1 ∧ m.duty = 0 := by
  intro k
  induction k with
  | zero =>
    intro fuel s t h1 h2 h3 h4 hk hf
    cases fuel with
    | zero => omega
    | succ n =>
      have hne : s.speed ≠ t := by omega
      refine ⟨brake (rampStep s t).1, ?_, rfl, rfl, rfl⟩
      rw [safe_driveF_succ_eq, if_neg hne]
  | succ k ih =>
    intro fuel s t h1 h2 h3 h4 hk hf
    cases fuel with
    | zero => omega
    | succ n =>
      have hne : s.speed ≠ t := by omega
      obtain ⟨hr1, hr2, hr3⟩ := rampStep_progress s t h1 h2 h3 h4 hne
      obtain ⟨m, hm, hp⟩ := ih n (rampStep s t).1 t hr1 hr2 h3 h4 (by omega) (by omega)
      refine ⟨m, ?_, hp⟩
      rw [safe_driveF_succ_eq, if_neg hne]
      exact hm

lemma rampSeq_length (c t : Int) : (rampSeq c t).length = (c - t).natAbs :=
  rampSeqAux_length _ _ _

lemma getLast_cons_getD (a : Int) (l : List Int) :
    (a :: l).getLast? = some (l.getLast?.getD a) := by
  induction l generalizing a with
  | nil => rfl
  | cons x xs ih =>
    rw [List.getLast?_cons_cons, ih x]
    rw [Option.getD_some]

/-- Independently of any range assumption, the ramp progression ends at the
target (or is empty with current speed already at the target). -/
lemma rampSeq_last (c t : Int) : (rampSeq c t).getLast?.getD c = t := by
  by_cases heq : c = t
  · rw [heq, rampSeq_self]
    rfl
  · have hne0 : (c - t).natAbs ≠ 0 := by omega
    rw [rampSeq, rampSeqAux_getLast _ _ _ hne0, Option.getD_some]
    by_cases hgt : c > t <;> simp only [hgt, if_true, if_false] <;> omega

/-- C1 counterexample: the direction token `raw_values` is not among the
recognized values `forward`/`reverse`, yet `set_motor('raw_values', 50)` does
not raise — `getattr` resolves it to the `set_raw_values` method, which with
no arguments is a no-op, after which the PWM duty is still written (here from
0 to 32768), a hardware write. -/
theorem set_motor_dispatch_counterexample :
    set_motor (stateAt 0) "raw_values" 50 = .ok { stateAt 0 with duty := 32768 } ∧
    set_motor (stateAt 0) "raw_values" 50 ≠ .error .valueError ∧
    ({ stateAt 0 with duty := 32768 } : MotorState).duty ≠ (stateAt 0).duty := by
  exact ⟨by decide, by decide, by decide⟩

/-- C1 amended: `set_motor(d, s)` raises `ValueError` with no hardware write
exactly when `set_` + d names no attribute, i.e. for every token outside
`{forward, reverse, raw_values, motor}`; `forward`/`reverse` raise nothing,
but `raw_values` also raises nothing and performs a duty write, and `motor`
raises `TypeError` (not `ValueError`) with no hardware write. -/
theorem set_motor_invalid_direction (d : String) (s : MotorState) (sp : Int)
    (hf : d ≠ "forward") (hr : d ≠ "reverse") (hw : d ≠ "raw_values") (hm : d ≠ "motor") :
    set_motor s d sp = .error .valueError ∧
    set_motor s "forward" sp = .ok { s with p1 := 1, p2 := 0, duty := percent_to_duty sp } ∧
    set_motor s "reverse" sp = .ok { s with p1 := 0, p2 := 1, duty := percent_to_duty sp } ∧
    set_motor s "raw_values" sp = .ok { s with duty := percent_to_duty sp } ∧
    set_motor s "motor" sp = .error .typeError := by
  refine ⟨?_, rfl, rfl, rfl, rfl⟩
  unfold set_motor
  rw [if_neg hf, if_neg hr, if_neg hw, if_neg hm]

/-- C1 witness: the amended theorem applied to the unrecognized token `up`. -/
theorem set_motor_invalid_direction_witness :
    set_motor (stateAt 0) "up" 5 = .error .valueError ∧
    set_motor (stateAt 0) "forward" 5
      = .ok { stateAt 0 with p1 := 1, p2 := 0, duty := percent_to_duty 5 } ∧
    set_motor (stateAt 0) "reverse" 5
      = .ok { stateAt 0 with p1 := 0, p2 := 1, duty := percent_to_duty 5 } ∧
    set_motor (stateAt 0) "raw_values" 5 = .ok { stateAt 0 with duty := percent_to_duty 5 } ∧
    set_motor (stateAt 0) "motor" 5 = .error .typeError :=
  set_motor_invalid_direction "up" (stateAt 0) 5 (by decide) (by decide) (by decide) (by decide)

/-- C2 counterexample: ramping from speed 1 to target -1, the step that
reaches 0 is `drive(0)` with the default `auto_brake=True`, so it applies
brake — both direction lines asserted, duty 0 — and matches neither the
forward (1,0) nor the reverse (0,1) line pattern of an ordinary
`set_motor` step; the 0 is yielded mid-ramp, not as the final target. -/
theorem ramp_zero_step_counterexample :
    rampStep (stateAt 1) (-1) = (brake { stateAt 1 with speed := 0 }, 0) ∧
    (rampStep (stateAt 1) (-1)).1.p1 = 1 ∧ (rampStep (stateAt 1) (-1)).1.p2 = 1 ∧
    (rampStep (stateAt 1) (-1)).1.duty = 0 ∧
    ¬((rampStep (stateAt 1) (-1)).1.p1 = 1 ∧ (rampStep (stateAt 1) (-1)).1.p2 = 0) ∧
    ¬((rampStep (stateAt 1) (-1)).1.p1 = 0 ∧ (rampStep (stateAt 1) (-1)).1.p2 = 1) ∧
    (drive_rampF 2 (stateAt 1) (-1) false).map RampRun.yields = some [0, -1] := by
  decide

/-- C2 amended: a ramp step whose computed next speed is 0 is applied as
`drive(0)` with `auto_brake` left at its default `True`, so it invokes brake
(both lines asserted, duty 0); brake-on-zero applies to every `drive` call
whose clamped speed argument is exactly 0, whether issued directly or by a
ramp step. -/
theorem ramp_zero_step_brakes (s : MotorState) (t : Int)
    (h : (drive s).2 + (if (drive s).2 > t then -1 else 1) = 0) :
    rampStep s t = (brake { s with speed := 0 }, 0) := by
  have hstep : rampStep s t
      = drive s (some ((drive s).2 + (if (drive s).2 > t then -1 else 1))) true := rfl
  rw [hstep, h]
  rfl

/-- C2 witness: the amended theorem applied to a ramp step from -1 toward 5. -/
theorem ramp_zero_step_brakes_witness :
    rampStep (stateAt (-1)) 5 = (brake { stateAt (-1) with speed := 0 }, 0) :=
  ramp_zero_step_brakes (stateAt (-1)) 5 (by decide)

/-- C3: for every stored current speed and target in [-100, 100], the ramp
generator is exhausted after finitely many steps — fuel equal to the unit
distance suffices — with the stored speed equal to the target and one yielded
value per unit step. -/
theorem drive_ramp_terminates (s : MotorState) (t : Int) (b : Bool)
    (h1 : -100 ≤ s.speed) (h2 : s.speed ≤ 100) (h3 : -100 ≤ t) (h4 : t ≤ 100) :
    ∃ r : RampRun, drive_rampF ((s.speed - t).natAbs) s t b = some r ∧
      r.final.speed = t ∧ r.yields.length = (s.speed - t).natAbs := by
  obtain ⟨r, hr, hy, _, hf⟩ :=
    drive_rampF_spec ((s.speed - t).natAbs) s t b h1 h2 h3 h4 (le_refl _)
  exact ⟨r, hr, hf, by rw [hy, rampSeq_length]⟩

/-- C3 witness: the termination theorem at a ramp from 10 to -3. -/
theorem drive_ramp_terminates_witness :
    ∃ r : RampRun,
      drive_rampF (((stateAt 10).speed - (-3)).natAbs) (stateAt 10) (-3) true = some r ∧
      r.final.speed = -3 ∧ r.yields.length = ((stateAt 10).speed - (-3)).natAbs :=
  drive_ramp_terminates (stateAt 10) (-3) true (by decide) (by decide) (by decide) (by decide)

/-- C4: the ramp yields exactly the arithmetic progression of unit steps from
current toward target: each yielded value is the previous one plus the fixed
unit step, every value lies between current and target (never overshooting),
the last one is the target, and there is one value per unit of distance. -/
theorem drive_ramp_progression (s : MotorState) (t : Int)
    (h1 : -100 ≤ s.speed) (h2 : s.speed ≤ 100) (h3 : -100 ≤ t) (h4 : t ≤ 100) :
    ∃ r : RampRun, drive_rampF ((s.speed - t).natAbs) s t false = some r ∧
      r.yields = rampSeq s.speed t ∧
      List.Chain (fun a b => b = a + (if s.speed > t then -1 else 1)) s.speed r.yields ∧
      (∀ v ∈ r.yields, min s.speed t ≤ v ∧ v ≤ max s.speed t) ∧
      r.yields.getLast?.getD s.speed = t ∧
      r.yields.length = (s.speed - t).natAbs := by
  obtain ⟨r, hr, hy, _, _⟩ :=
    drive_rampF_spec ((s.speed - t).natAbs) s t false h1 h2 h3 h4 (le_refl _)
  refine ⟨r, hr, hy, ?_, ?_, ?_, ?_⟩
  · rw [hy, rampSeq]
    exact rampSeqAux_chain _ _ _
  · rw [hy]
    intro v hv
    rw [rampSeq] at hv
    obtain ⟨k, hk1, hk2, hk3⟩ := rampSeqAux_mem _ _ _ v hv
    by_cases hgt : s.speed > t
    · rw [if_pos hgt] at hk3
      rw [min_eq_right (le_of_lt hgt), max_eq_left (le_of_lt hgt)]
      omega
    · rw [if_neg hgt] at hk3
      have hle : s.speed ≤ t := le_of_not_lt hgt
      rw [min_eq_left hle, max_eq_right hle]
      omega
  · rw [hy]
    exact rampSeq_last _ _
  · rw [hy, rampSeq_length]

/-- C4 witness: the progression theorem at a ramp from 10 to -3. -/
theorem drive_ramp_progression_witness :
    ∃ r : RampRun,
      drive_rampF (((stateAt 10).speed - (-3)).natAbs) (stateAt 10) (-3) false = some r ∧
      r.yields = rampSeq (stateAt 10).speed (-3) ∧
      List.Chain (fun a b => b = a + (if (stateAt 10).speed > (-3) then -1 else 1))
        (stateAt 10).speed r.yields ∧
      (∀ v ∈ r.yields, min (stateAt 10).speed (-3) ≤ v ∧ v ≤ max (stateAt 10).speed (-3)) ∧
      r.yields.getLast?.getD (stateAt 10).speed = -3 ∧
      r.yields.length = ((stateAt 10).speed - (-3)).natAbs :=
  drive_ramp_progression (stateAt 10) (-3) (by decide) (by decide) (by decide) (by decide)

/-- C5: if a cancellation signal interrupts a ramp run through either
wrapper — during any of its sleeps before the ramp finishes — the motor state
returned to the caller is Brake: both direction lines asserted, duty 0. -/
theorem safe_drive_cancel_brakes (s : MotorState) (t : Int) (k fuel : Nat)
    (h1 : -100 ≤ s.speed) (h2 : s.speed ≤ 100) (h3 : -100 ≤ t) (h4 : t ≤ 100)
    (hk : k < (s.speed - t).natAbs) (hf : k < fuel) :
    ∃ m : MotorState,
      safe_driveF fuel s t (some k) = some m ∧
      safe_drive_asyncF fuel s t (some k) = some m ∧
      m.p1 = 1 ∧ m.p2 = 1 ∧ m.duty = 0 := by
  obtain ⟨m, hm, hp1, hp2, hd⟩ := safe_driveF_cancel_spec k fuel s t h1 h2 h3 h4 hk hf
  exact ⟨m, hm, by rw [safe_drive_asyncF_eq_sync]; exact hm, hp1, hp2, hd⟩

/-- C5 witness: cancellation during the third sleep of a ramp from 10 to -3. -/
theorem safe_drive_cancel_brakes_witness :
    ∃ m : MotorState,
      safe_driveF 5 (stateAt 10) (-3) (some 2) = some m ∧
      safe_drive_asyncF 5 (stateAt 10) (-3) (some 2) = some m ∧
      m.p1 = 1 ∧ m.p2 = 1 ∧ m.duty = 0 :=
  safe_drive_cancel_brakes (stateAt 10) (-3) 2 5 (by decide) (by decide) (by decide)
    (by decide) (by decide) (by decide)

/-- C6: `percent_to_duty` takes the absolute value, clamps to [0,100],
multiplies by 655.35, rounds to the nearest integer (Python `round`, ties to
even), clamps to at most 65535; in particular it maps 0 to 0, 100 to 65535,
150 to 65535 and 50 to 32768 — and on the remaining exact ties 30 to 19660
and 70 to 45874 — is even in its argument, and always lands in [0, 65535]. -/
theorem percent_to_duty_values :
    percent_to_duty 0 = 0 ∧ percent_to_duty 100 = 65535 ∧
    percent_to_duty 150 = 65535 ∧ percent_to_duty 50 = 32768 ∧
    percent_to_duty 30 = 19660 ∧ percent_to_duty 70 = 45874 ∧
    (∀ p : Int, percent_to_duty p = percent_to_duty (-p)) ∧
    (∀ p : Int, 0 ≤ percent_to_duty p ∧ percent_to_duty p ≤ 65535) ∧
    (∀ p : Int, percent_to_duty p =
      min (pyRound (((max 0 (min 100 (p.natAbs : Int)) : Int) : ℚ) * 655.35)) 65535) := by
  refine ⟨by decide, by decide, by decide, by decide, by decide, by decide,
    ?_, ?_, percent_to_duty_eq_pyRound⟩
  · intro p
    simp [percent_to_duty, Int.natAbs_neg]
  · intro p
    unfold percent_to_duty
    have h1 : 0 ≤ pyRoundScaled (131070 * max 0 (min 100 ((p.natAbs : Int)))) :=
      pyRoundScaled_nonneg _ (mul_nonneg (by norm_num) (le_max_left _ _))
    exact ⟨le_min h1 (by norm_num), min_le_right _ _⟩

/-- C7: the stored speed starts at 0 with brake applied at construction, every
`drive` with an argument stores and returns the value clamped into
[-100, 100], and no other operation changes the stored speed at all. -/
theorem speed_invariant :
    (∀ hs : Bool, (TB6612FNG_init hs).speed = 0 ∧ (TB6612FNG_init hs).p1 = 1 ∧
      (TB6612FNG_init hs).p2 = 1 ∧ (TB6612FNG_init hs).duty = 0) ∧
    (∀ (s : MotorState) (sp : Int) (ab : Bool),
      (drive s (some sp) ab).2 = max (-100) (min 100 sp) ∧
      (drive s (some sp) ab).1.speed = (drive s (some sp) ab).2 ∧
      -100 ≤ (drive s (some sp) ab).1.speed ∧ (drive s (some sp) ab).1.speed ≤ 100) ∧
    (∀ (s : MotorState) (ab : Bool),
      (drive s (some 200) ab).2 = 100 ∧ (drive s (some (-200)) ab).2 = -100) ∧
    (∀ (s : MotorState) (ab : Bool),
      (drive s none ab).1.speed = s.speed ∧ (brake s).speed = s.speed ∧
      (coast s).speed = s.speed ∧ (set_forward s).speed = s.speed ∧
      (set_reverse s).speed = s.speed ∧ («on» s).1.speed = s.speed ∧
      (off s ab).1.speed = s.speed) ∧
    (∀ (s : MotorState) (d : String) (v : Int),
      Except.map MotorState.speed (set_motor s d v)
        = Except.map (fun _ => s.speed) (set_motor s d v)) ∧
    (∀ (s : MotorState) (a b c : Option Int), (set_raw_values s a b c).speed = s.speed) := by
  refine ⟨by decide, ?_, ?_, ?_, ?_, ?_⟩
  · intro s sp ab
    obtain ⟨ha, hb⟩ := drive_some_speed s sp ab
    refine ⟨hb, by rw [ha, hb], ?_, ?_⟩
    · rw [ha]
      exact le_max_left _ _
    · rw [ha]
      exact max_le (by norm_num) (min_le_left _ _)
  · intro s ab
    constructor
    · rw [(drive_some_speed s 200 ab).2]
      decide
    · rw [(drive_some_speed s (-200) ab).2]
      decide
  · intro s ab
    refine ⟨rfl, rfl, rfl, rfl, rfl, ?_, ?_⟩
    · cases hs : s.stby <;> simp [«on», hs]
    · cases ab <;> cases hs : s.stby <;>
        simp [off, brake, coast, set_raw_values, hs]
  · intro s d v
    unfold set_motor
    split_ifs <;> rfl
  · intro s a b c
    cases a <;> cases b <;> cases c <;> rfl

/-- C8: a completed ramp with a registered observer invokes it once per step
with the pre-step speed plus once with the final settled value — the call list
is the pre-ramp speed consed onto the yielded values, one longer than the step
list, ending at the target; a zero-step ramp gives exactly one call. -/
theorem ramp_observer_calls (s : MotorState) (t : Int)
    (h1 : -100 ≤ s.speed) (h2 : s.speed ≤ 100) (h3 : -100 ≤ t) (h4 : t ≤ 100) :
    ∃ r : RampRun, drive_rampF ((s.speed - t).natAbs) s t true = some r ∧
      r.calls = s.speed :: r.yields ∧
      r.calls.length = r.yields.length + 1 ∧
      r.calls.getLast? = some t ∧
      (s.speed = t → r.yields = [] ∧ r.calls = [s.speed]) := by
  obtain ⟨r, hr, hy, hc, _⟩ :=
    drive_rampF_spec ((s.speed - t).natAbs) s t true h1 h2 h3 h4 (le_refl _)
  have hc2 : r.calls = s.speed :: rampSeq s.speed t := by simpa using hc
  refine ⟨r, hr, ?_, ?_, ?_, ?_⟩
  · rw [hc2, hy]
  · rw [hc2, hy]
    simp
  · rw [hc2, getLast_cons_getD, rampSeq_last]
  · intro heq
    constructor
    · rw [hy, heq, rampSeq_self]
    · rw [hc2, heq, rampSeq_self]

/-- C8 witness: the observer theorem at a zero-step ramp from 0 to 0. -/
theorem ramp_observer_calls_witness :
    ∃ r : RampRun,
      drive_rampF (((stateAt 0).speed - 0).natAbs) (stateAt 0) 0 true = some r ∧
      r.calls = (stateAt 0).speed :: r.yields ∧
      r.calls.length = r.yields.length + 1 ∧
      r.calls.getLast? = some 0 ∧
      ((stateAt 0).speed = 0 → r.yields = [] ∧ r.calls = [(stateAt 0).speed]) :=
  ramp_observer_calls (stateAt 0) 0 (by decide) (by decide) (by decide) (by decide)

/-- C9: `drive()` with the speed argument omitted changes nothing — the state
returned is the input state, all fields included — and returns the stored
speed, for every state and either value of `auto_brake`. -/
theorem drive_read_pure : ∀ (s : MotorState) (ab : Bool), drive s none ab = (s, s.speed) :=
  fun _ _ => rfl

/-- C10: on a driver constructed without a standby pin, `on()` raises
`AttributeError` leaving the state unchanged, while `off(auto_brake)` first
applies brake (or coast) to the direction lines and duty and only then raises
`AttributeError` — the hardware state changes despite the failure. -/
theorem standby_missing_errors (s : MotorState) (h : s.stby = none) :
    «on» s = (s, some PyErr.attributeError) ∧
    off s true = (brake s, some PyErr.attributeError) ∧
    off s false = (coast s, some PyErr.attributeError) ∧
    (off s true).1.p1 = 1 ∧ (off s true).1.p2 = 1 ∧ (off s true).1.duty = 0 ∧
    (off s false).1.p1 = 0 ∧ (off s false).1.p2 = 0 ∧ (off s false).1.duty = 0 := by
  have hb : (brake s).stby = none := h
  have hcs : (coast s).stby = none := h
  have h1 : «on» s = (s, some PyErr.attributeError) := by
    simp [«on», h]
  have h2 : off s true = (brake s, some PyErr.attributeError) := by
    simp [off, hb]
  have h3 : off s false = (coast s, some PyErr.attributeError) := by
    simp [off, hcs]
  refine ⟨h1, h2, h3, ?_, ?_, ?_, ?_, ?_, ?_⟩ <;> first
    | (rw [h2]; rfl)
    | (rw [h3]; rfl)

/-- C10 witness: the standby-error theorem at a concrete stby-less state. -/
theorem standby_missing_errors_witness :
    «on» (stateAt 0) = (stateAt 0, some PyErr.attributeError) ∧
    off (stateAt 0) true = (brake (stateAt 0), some PyErr.attributeError) ∧
    off (stateAt 0) false = (coast (stateAt 0), some PyErr.attributeError) ∧
    (off (stateAt 0) true).1.p1 = 1 ∧ (off (stateAt 0) true).1.p2 = 1 ∧
    (off (stateAt 0) true).1.duty = 0 ∧
    (off (stateAt 0) false).1.p1 = 0 ∧ (off (stateAt 0) false).1.p2 = 0 ∧
    (off (stateAt 0) false).1.duty = 0 :=
  standby_missing_errors (stateAt 0) rfl
